import Mathlib

/-!
Verification of the mikrodtech speed-test / chat server (server.js).

The server has four routes: POST /chat (LLM relay), GET /api/speedtest/download
(streams sizeMB * 1 MiB of random bytes in 128 KiB chunks),
POST /api/speedtest/upload (accumulates the request body and reports the MB
received), and GET /api/speedtest/ping (random simulated delay, reported to
two decimals).  Below, each route's request-level logic is embedded as a pure
Lean function: the random content of a download chunk is irrelevant to every
property, so a chunk is represented by its length; JavaScript numbers that are
exact in the relevant range are represented by Nat / Int / Rat.
-/

/-! ## JavaScript primitives used by the routes -/

/-- The characters JavaScript's String.prototype.trim removes: the WhiteSpace
and LineTerminator productions (tab, LF, VT, FF, CR, space, NBSP, Ogham space,
the en-quad..hair-space block, LS, PS, NNBSP, MMSP, ideographic space, BOM). -/
def isJsSpace (c : Char) : Bool :=
  c.toNat = 9 || c.toNat = 10 || c.toNat = 11 || c.toNat = 12 || c.toNat = 13 ||
  c.toNat = 32 || c.toNat = 160 || c.toNat = 0x1680 ||
  (0x2000 ≤ c.toNat && c.toNat ≤ 0x200A) ||
  c.toNat = 0x2028 || c.toNat = 0x2029 || c.toNat = 0x202F ||
  c.toNat = 0x205F || c.toNat = 0x3000 || c.toNat = 0xFEFF

/-- JavaScript's String.prototype.trim: drop leading and trailing whitespace. -/
def jsTrim (s : String) : String :=
  String.mk (((s.data.dropWhile isJsSpace).reverse.dropWhile isJsSpace).reverse)

/-- Value of a decimal digit character, none for any other character. -/
def decDigit (c : Char) : Option Nat :=
  let n := c.toNat
  if 48 ≤ n && n ≤ 57 then some (n - 48) else none

/-- Value of a hexadecimal digit character (48..57 are the digits, 97..102
the lower-case and 65..70 the upper-case letters), none for any other
character. -/
def hexDigit (c : Char) : Option Nat :=
  let n := c.toNat
  if 48 ≤ n && n ≤ 57 then some (n - 48)
  else if 97 ≤ n && n ≤ 102 then some (n - 87)
  else if 65 ≤ n && n ≤ 70 then some (n - 55)
  else none

/-- Accumulate the longest prefix of digits (in the given base) onto `acc`,
stopping at the first non-digit, as parseInt does. -/
def takeDigitsAux (dv : Char → Option Nat) (base : Nat) : List Char → Nat → Nat
  | [], acc => acc
  | c :: rest, acc =>
    match dv c with
    | none => acc
    | some d => takeDigitsAux dv base rest (acc * base + d)

/-- Parse a nonempty digit prefix in the given base; none when the first
character is not a digit (parseInt then yields NaN). -/
def takeDigits (dv : Char → Option Nat) (base : Nat) : List Char → Option Nat
  | [] => none
  | c :: rest =>
    match dv c with
    | none => none
    | some d => some (takeDigitsAux dv base rest d)

/-- JavaScript's parseInt(s) with no radix argument: skip leading whitespace,
read an optional sign, detect a 0x/0X prefix (hexadecimal) and otherwise parse
the longest decimal digit prefix; none models a NaN result. -/
def jsParseInt (s : String) : Option Int :=
  let cs := s.data.dropWhile isJsSpace
  let signed : Int × List Char :=
    match cs with
    | '-' :: rest => (-1, rest)
    | '+' :: rest => (1, rest)
    | _ => (1, cs)
  let body := signed.2
  let digits : Option Nat :=
    match body with
    | '0' :: x :: rest =>
      if x = 'x' || x = 'X' then takeDigits hexDigit 16 rest
      else takeDigits decDigit 10 body
    | _ => takeDigits decDigit 10 body
  digits.map (fun n => signed.1 * (n : Int))

/-- JavaScript's `a || d` on a parseInt result: NaN (none) and 0 are falsy and
give the default `d`; any other number gives itself. -/
def jsOr (pr : Option Int) (d : Int) : Int :=
  match pr with
  | none => d
  | some v => if v = 0 then d else v

/-- JavaScript's `o || d` where `o` is an optional string (undefined or a
string): undefined and the empty string are falsy and give the default. -/
def jsOrStr (o : Option String) (d : String) : String :=
  match o with
  | none => d
  | some s => if s = "" then d else s

/-- Round a nonnegative rational to two decimals the way Number.toFixed(2)
does ("pick the larger n" on ties): the resulting integer number of
hundredths. -/
def toFixed2Int (x : ℚ) : ℤ := ⌊x * 100 + 1 / 2⌋

/-- The numeric value of x rounded to two decimals (toFixed(2) read back as a
number). -/
def toFixed2Val (x : ℚ) : ℚ := ((toFixed2Int x : ℤ) : ℚ) / 100

/-- The string Number.toFixed(2) produces for a nonnegative value: the integer
part, a dot, and the hundredths padded to two digits. -/
def renderFixed2 (x : ℚ) : String :=
  let n := (toFixed2Int x).toNat
  toString (n / 100) ++ "." ++
    (if n % 100 < 10 then "0" ++ toString (n % 100) else toString (n % 100))

/-! ## GET /api/speedtest/download

    const sizeMB = Math.min(Math.max(parseInt(req.query.size) || 50, 1), 200);
    const totalBytes = sizeMB * 1024 * 1024;
    const chunkSize = 128 * 1024;
    let sent = 0;
    read() - if (sent >= totalBytes) push(null) and stop; else push
    randomBytes(Math.min(chunkSize, totalBytes - sent)) and add its length to
    sent.  A chunk is modelled by its length. -/

/-- The fixed 128 KiB chunk size of the download generator. -/
def chunkSize : ℕ := 128 * 1024

/-- sizeMB of the download route: parseInt of the size query (none = absent or
NaN), default 50 via ||, clamped by Math.max 1 then Math.min 200. -/
def downloadSizeMB (q : Option String) : ℤ :=
  min (max (jsOr (q.bind jsParseInt) 50) 1) 200

/-- totalBytes of the download route: sizeMB * 1024 * 1024. -/
def downloadTotalBytes (q : Option String) : ℕ :=
  (downloadSizeMB q).toNat * (1024 * 1024)

/-- One invocation of the stream's read() callback: none when
sent >= totalBytes (the generator pushes null, ending the stream), otherwise
the length min(chunkSize, totalBytes - sent) of the chunk pushed, paired with
the updated sent counter. -/
def readStep (totalBytes sent : ℕ) : Option (ℕ × ℕ) :=
  if totalBytes ≤ sent then none
  else
    let len := min chunkSize (totalBytes - sent)
    some (len, sent + len)

/-- Repeated read() invocations until the generator ends the stream.  fuel
bounds the number of invocations; every chunk is at least one byte long, so
totalBytes - sent invocations always suffice (drainAux_fuel below). -/
def drainAux : ℕ → ℕ → ℕ → List ℕ
  | 0, _, _ => []
  | fuel + 1, totalBytes, sent =>
    match readStep totalBytes sent with
    | none => []
    | some (len, sent') => len :: drainAux fuel totalBytes sent'

/-- The chunk lengths the download generator emits from counter value sent. -/
def streamChunks (totalBytes sent : ℕ) : List ℕ :=
  drainAux (totalBytes - sent) totalBytes sent

/-! ## GET /api/speedtest/ping

    const simulatedLatency = Math.random() * 50 + 10;
    await ... setTimeout(..., simulatedLatency);
    res.json with message "pong" and latency simulatedLatency.toFixed(2).
    Math.random() is modelled by its result r, an arbitrary rational in
    the interval from 0 inclusive to 1 exclusive; which values of that
    interval the generator reaches (uniformity) is not modelled. -/

/-- The simulated delay: Math.random() * 50 + 10, for a given random draw. -/
def pingDelay (r : ℚ) : ℚ := r * 50 + 10

/-- The ping route's JSON response: the fixed message and the numeric value of
simulatedLatency.toFixed(2). -/
structure PingResponse where
  message : String
  latency : ℚ
deriving DecidableEq

/-- The response of the ping route for a given random draw. -/
def pingResponse (r : ℚ) : PingResponse :=
  ⟨"pong", toFixed2Val (pingDelay r)⟩

/-! ## POST /api/speedtest/upload

    const sizeMB = Math.min(Math.max(parseInt(req.query.size) || 10, 1), 100);
    const chunks = [];
    req.on("data", chunk - chunks.push(chunk));
    req.on("end", () - totalBytes = Buffer.concat(chunks).length;
                       res.json with status "ok" and
                       receivedMB (totalBytes / (1024*1024)).toFixed(2));
    catch (err) - res.status(500).json with error "Upload test failed".

    The request stream is modelled as the list of events the socket delivers
    in order; a data chunk is represented by its length.  The handler
    registers listeners only for "data" and "end": an "error" event has no
    listener, "end" never fires after it, and the catch block only covers the
    synchronous listener registration, so after a mid-stream error no response
    is ever written. -/

/-- sizeMB of the upload route: default 10 via ||, clamped to 1..100.  The
value is computed and then never used by the handler. -/
def uploadSizeMB (q : Option String) : ℤ :=
  min (max (jsOr (q.bind jsParseInt) 10) 1) 100

/-- One event of the inbound request stream: a data chunk (its byte length),
the end event, or a stream error (transport abort). -/
inductive UpEvent
  | data (n : ℕ)
  | eof
  | error
deriving DecidableEq

/-- What the upload route sends back: the 200 JSON with status "ok" and the
receivedMB string, the 500 JSON of the catch block (error "Upload test
failed"), or nothing at all. -/
inductive UploadOutcome
  | ok (receivedMB : String)
  | failed
  | noResponse
deriving DecidableEq

/-- receivedMB as rendered by (totalBytes / (1024 * 1024)).toFixed(2). -/
def mbString (totalBytes : ℕ) : String :=
  renderFixed2 ((totalBytes : ℚ) / (1024 * 1024))

/-- The upload handler's event loop: data chunks accumulate into the running
byte count, the end event triggers the ok response, and an error event stops
everything with no listener attached and hence no response; a stream that
never ends also never responds. -/
def runUpload : List UpEvent → ℕ → UploadOutcome
  | [], _ => .noResponse
  | .data n :: rest, acc => runUpload rest (acc + n)
  | .eof :: _, acc => .ok (mbString acc)
  | .error :: _, _ => .noResponse

/-- The upload route: computes sizeMB from the query (and never uses it), then
lets the stream events drive the response. -/
def uploadHandler (q : Option String) (events : List UpEvent) : UploadOutcome :=
  let _sizeMB := uploadSizeMB q
  runUpload events 0

/-! ## POST /chat

    const message = req.body.message;
    if (!message || message.trim() === "") respond 400 with the validation
    reply; otherwise call the completion API inside try/catch: on throw
    respond 500 with the fixed degradation reply; on success take
    completion.choices?.[0]?.message?.content?.trim() || fallback, delete
    every <s> and </s> tag case-insensitively, trim again, respond 200.
    The message is modelled as an optional string (none = field absent), the
    upstream call by its result: an exception carrying an arbitrary error
    string, or the optional content string of the first choice. -/

/-- The 400 reply sent for a missing, empty or whitespace-only message. -/
def validationReply : String := "Please provide a valid message."

/-- The fallback reply substituted for missing or empty upstream content. -/
def fallbackReply : String := "Sorry, I didn’t quite catch that."

/-- The fixed 500 reply of the catch block; the caught error never reaches
the response body. -/
def degradedReply : String :=
  "⚠️ Sorry, I'm having trouble responding right now. Please try again shortly."

/-- Delete every occurrence of an s tag, scanning left to right as the global
regex replace of the pattern matching a left angle bracket, an optional
slash, the letter s case-insensitively, and a right angle bracket does. -/
def stripSTagsAux : List Char → List Char
  | '<' :: '/' :: c :: '>' :: rest =>
    if c = 's' || c = 'S' then stripSTagsAux rest
    else '<' :: stripSTagsAux ('/' :: c :: '>' :: rest)
  | '<' :: c :: '>' :: rest =>
    if c = 's' || c = 'S' then stripSTagsAux rest
    else '<' :: stripSTagsAux (c :: '>' :: rest)
  | c :: rest => c :: stripSTagsAux rest
  | [] => []

/-- String version of stripSTagsAux. -/
def stripSTags (s : String) : String := String.mk (stripSTagsAux s.data)

/-- An HTTP status code paired with the reply string of the JSON body. -/
structure ChatResponse where
  status : ℕ
  reply : String
deriving DecidableEq

/-- The chat route: validation, then the upstream call's two outcomes. -/
def chatHandler (message : Option String) (upstream : Except String (Option String)) :
    ChatResponse :=
  match message with
  | none => ⟨400, validationReply⟩
  | some m =>
    if m = "" || jsTrim m = "" then ⟨400, validationReply⟩
    else
      match upstream with
      | .error _ => ⟨500, degradedReply⟩
      | .ok content =>
        let reply0 := jsOrStr (content.map jsTrim) fallbackReply
        ⟨200, jsTrim (stripSTags reply0)⟩

/-- With nothing left to send the generator emits no chunk, whatever the fuel. -/
theorem drainAux_nil_of_le (fuel t s : ℕ) (h : t ≤ s) : drainAux fuel t s = [] := by
  cases fuel <;> simp [drainAux, readStep, h]

/-- Enough fuel given: the emitted chunk lengths add up to exactly the bytes
still owed, so the counter ends at totalBytes. -/
theorem drainAux_sum (fuel : ℕ) : ∀ t s, t - s ≤ fuel → s ≤ t →
    s + (drainAux fuel t s).sum = t := by
  induction fuel with
  | zero =>
    intro t s hf hs
    have h : t ≤ s := by omega
    simp [drainAux_nil_of_le 0 t s h]
    omega
  | succ fuel ih =>
    intro t s hf hs
    by_cases h : t ≤ s
    · simp [drainAux, readStep, h]; omega
    · have hc : chunkSize = 131072 := rfl
      have hrec := ih t (s + min chunkSize (t - s)) (by omega) (by omega)
      simp [drainAux, readStep, h]
      omega

/-- The download stream of a fresh request carries exactly totalBytes bytes. -/
theorem streamChunks_sum (t : ℕ) : (streamChunks t 0).sum = t := by
  have h := drainAux_sum (t - 0) t 0 (by omega) (by omega)
  simpa [streamChunks] using h

/-- The sent counter (the sum of the chunks already emitted) never exceeds
totalBytes at any point of the generation. -/
theorem streamChunks_prefix_le (t : ℕ) (pre suf : List ℕ)
    (h : streamChunks t 0 = pre ++ suf) : pre.sum ≤ t := by
  have hsum := streamChunks_sum t
  rw [h, List.sum_append] at hsum
  omega

/-- Each chunk emitted with enough fuel is min(chunkSize, remaining), where
remaining counts totalBytes minus the bytes sent before it. -/
theorem drainAux_getD (fuel : ℕ) : ∀ t s i, t - s ≤ fuel →
    i < (drainAux fuel t s).length →
    (drainAux fuel t s).getD i 0 =
      min chunkSize (t - (s + ((drainAux fuel t s).take i).sum)) := by
  induction fuel with
  | zero => intro t s i hf hi; simp [drainAux] at hi
  | succ fuel ih =>
    intro t s i hf hi
    by_cases h : t ≤ s
    · simp [drainAux, readStep, h] at hi
    · cases i with
      | zero => simp [drainAux, readStep, h]
      | succ i =>
        have hc : chunkSize = 131072 := rfl
        simp only [drainAux, readStep, if_neg h, List.length_cons,
          Nat.add_lt_add_iff_right] at hi
        simp only [drainAux, readStep, if_neg h, List.getD_cons_succ,
          List.take_succ_cons, List.sum_cons]
        rw [ih t (s + min chunkSize (t - s)) i (by omega) hi]
        congr 1
        omega

/-- Every chunk having one after it is a full 128 KiB chunk. -/
theorem drainAux_full (fuel : ℕ) : ∀ t s i, t - s ≤ fuel →
    i + 1 < (drainAux fuel t s).length →
    (drainAux fuel t s).getD i 0 = chunkSize := by
  induction fuel with
  | zero => intro t s i hf hi; simp [drainAux] at hi
  | succ fuel ih =>
    intro t s i hf hi
    by_cases h : t ≤ s
    · simp [drainAux, readStep, h] at hi
    · have hc : chunkSize = 131072 := rfl
      cases i with
      | zero =>
        by_cases h2 : t ≤ s + min chunkSize (t - s)
        · simp [drainAux, readStep, if_neg h,
            drainAux_nil_of_le fuel t (s + min chunkSize (t - s)) h2] at hi
        · simp only [drainAux, readStep, if_neg h, List.getD_cons_zero]
          omega
      | succ i =>
        simp only [drainAux, readStep, if_neg h, List.length_cons,
          Nat.add_lt_add_iff_right] at hi
        simp only [drainAux, readStep, if_neg h, List.getD_cons_succ]
        exact ih t (s + min chunkSize (t - s)) i (by omega) hi

/-- The generator emits nothing exactly when no bytes remain to be sent. -/
theorem streamChunks_nil_iff (t s : ℕ) : streamChunks t s = [] ↔ t - s = 0 := by
  constructor
  · intro h
    by_contra hne
    have hlt : ¬ t ≤ s := by omega
    cases hk : t - s with
    | zero => omega
    | succ k => rw [streamChunks, hk] at h; simp [drainAux, readStep, hlt] at h
  · intro h
    rw [streamChunks, h]
    rfl

/-- The embedding behaves as the routes do on concrete inputs: chunk layout
of a 300000-byte stream, parseInt on signed, hexadecimal and unparsable
input, trim and tag deletion, and the event loop of the upload sink. -/
theorem embedding_checks :
    streamChunks 300000 0 = [131072, 131072, 37856] ∧
    (streamChunks 1048576 0).sum = 1048576 ∧
    jsParseInt "  -12ab" = some (-12) ∧
    jsParseInt "0x1fz" = some 31 ∧
    jsParseInt "abc" = none ∧
    jsTrim "  hi \n" = "hi" ∧
    stripSTags " <s>Hello</S> x<b>" = " Hello x<b>" ∧
    chatHandler (some "  ") (Except.ok (some "x")) = ⟨400, validationReply⟩ ∧
    chatHandler (some "hi") (Except.ok (some " <s>Yes</s> ")) = ⟨200, "Yes"⟩ ∧
    chatHandler (some "hi") (Except.ok (some "  ")) = ⟨200, fallbackReply⟩ ∧
    runUpload [UpEvent.data 100, UpEvent.error, UpEvent.eof] 0 =
      UploadOutcome.noResponse := by
  decide

/-- C1: for a download request whose size query parses to a value in 1..200,
the stream's total length is exactly size * 1048576 bytes, the sent counter
(sum of the chunks already emitted) never exceeds totalBytes at any point of
the generation, and every chunk is truncated to at most the bytes
remaining. -/
theorem download_exact_total (q : String) (p : ℤ)
    (hq : jsParseInt q = some p) (h1 : 1 ≤ p) (h2 : p ≤ 200) :
    downloadTotalBytes (some q) = p.toNat * 1048576 ∧
    (streamChunks (downloadTotalBytes (some q)) 0).sum = p.toNat * 1048576 ∧
    (∀ pre suf, streamChunks (downloadTotalBytes (some q)) 0 = pre ++ suf →
      pre.sum ≤ downloadTotalBytes (some q)) ∧
    (∀ sent, sent < downloadTotalBytes (some q) →
      min chunkSize (downloadTotalBytes (some q) - sent) ≤
        downloadTotalBytes (some q) - sent) := by
  have hmb : downloadSizeMB (some q) = p := by
    simp only [downloadSizeMB, Option.some_bind, hq, jsOr]
    rw [if_neg (by omega)]
    omega
  have htb : downloadTotalBytes (some q) = p.toNat * 1048576 := by
    rw [downloadTotalBytes, hmb]
  refine ⟨htb, ?_, ?_, ?_⟩
  · rw [htb, ← htb]
    exact streamChunks_sum _
  · intro pre suf h
    exact streamChunks_prefix_le _ pre suf h
  · intro sent _
    exact min_le_right _ _

/-- C1 witness: size query "3" parses to 3, which lies in 1..200, and the
download stream for it sums to 3 * 1048576 bytes. -/
theorem download_exact_total_witness :
    jsParseInt "3" = some 3 ∧ (1 : ℤ) ≤ 3 ∧ (3 : ℤ) ≤ 200 ∧
    (streamChunks (downloadTotalBytes (some "3")) 0).sum = (3 : ℤ).toNat * 1048576 :=
  ⟨by decide, by decide, by decide,
    (download_exact_total "3" 3 (by decide) (by decide) (by decide)).2.1⟩

/-- C2 counterexample: a size query of "0" is served 50 MB, not the 1 MB the
claim's clamp-to-nearest-bound reading predicts: parseInt gives 0, which is
falsy, so the || takes the default 50 before any clamping. -/
theorem download_clamp_cex :
    downloadSizeMB (some "0") = 50 ∧ downloadSizeMB (some "0") ≠ 1 ∧
    downloadTotalBytes (some "0") ≠ 1 * 1048576 := by decide

/-- C2 (amended): a size whose parse is a nonzero value is clamped to 1..200
(500 becomes 200, negative values become 1), but a parse of 0 or NaN and an
absent size all fall through to the default 50; the served size always lies
in 1..200. -/
theorem download_clamp_amended :
    downloadSizeMB (some "500") = 200 ∧ downloadSizeMB (some "-5") = 1 ∧
    downloadSizeMB none = 50 ∧ downloadSizeMB (some "0") = 50 ∧
    (∀ s p, jsParseInt s = some p → p ≠ 0 →
      downloadSizeMB (some s) = min (max p 1) 200) ∧
    (∀ q, 1 ≤ downloadSizeMB q ∧ downloadSizeMB q ≤ 200) := by
  refine ⟨by decide, by decide, by decide, by decide, ?_, ?_⟩
  · intro s p hs hp
    simp [downloadSizeMB, hs, jsOr, hp]
  · intro q
    rw [downloadSizeMB]
    omega

/-- C2 amended witness: "500" parses to the nonzero 500, and the served size
is its clamp, 200. -/
theorem download_clamp_amended_witness :
    jsParseInt "500" = some 500 ∧ (500 : ℤ) ≠ 0 ∧
    downloadSizeMB (some "500") = min (max 500 1) 200 :=
  ⟨by decide, by decide,
    download_clamp_amended.2.2.2.2.1 "500" 500 (by decide) (by decide)⟩

/-- C6: the download generator emits nothing exactly when no bytes remain;
the chunk at position i is min(chunkSize, remaining) where remaining counts
totalBytes minus the bytes sent before it; and every chunk except possibly
the last is exactly the 131072-byte chunkSize. -/
theorem download_chunking (totalBytes sent : ℕ) :
    (streamChunks totalBytes sent = [] ↔ totalBytes - sent = 0) ∧
    (∀ i, i < (streamChunks totalBytes sent).length →
      (streamChunks totalBytes sent).getD i 0 =
        min chunkSize (totalBytes - (sent + ((streamChunks totalBytes sent).take i).sum))) ∧
    (∀ i, i + 1 < (streamChunks totalBytes sent).length →
      (streamChunks totalBytes sent).getD i 0 = chunkSize) ∧
    chunkSize = 131072 := by
  refine ⟨streamChunks_nil_iff _ _, ?_, ?_, rfl⟩
  · intro i hi
    exact drainAux_getD _ _ _ i (by omega) hi
  · intro i hi
    exact drainAux_full _ _ _ i (by omega) hi

/-- C6 witness: for a 300000-byte stream the first chunk (which has chunks
after it) is full, and the chunk at position 2 is the truncated remainder. -/
theorem download_chunking_witness :
    (streamChunks 300000 0).getD 0 0 = chunkSize ∧
    (streamChunks 300000 0).getD 2 0 =
      min chunkSize (300000 - (0 + ((streamChunks 300000 0).take 2).sum)) ∧
    (streamChunks 262144 262144 = [] ↔ 262144 - 262144 = 0) :=
  ⟨(download_chunking 300000 0).2.2.1 0 (by decide),
   (download_chunking 300000 0).2.1 2 (by decide),
   (download_chunking 262144 262144).1⟩

/-- C9: an absent size query, one that parseInt cannot parse (NaN), and the
string "0" all fall through the || to the default of 50 MB, a 52428800-byte
stream. -/
theorem download_default_size :
    downloadTotalBytes none = 52428800 ∧
    (∀ s, jsParseInt s = none → downloadTotalBytes (some s) = 52428800) ∧
    (∀ s, jsParseInt s = some 0 → downloadTotalBytes (some s) = 52428800) ∧
    (streamChunks 52428800 0).sum = 52428800 := by
  refine ⟨by decide, ?_, ?_, streamChunks_sum _⟩
  · intro s hs
    simp [downloadTotalBytes, downloadSizeMB, hs, jsOr]
  · intro s hs
    simp [downloadTotalBytes, downloadSizeMB, hs, jsOr]

/-- C9 witness: "abc" parses to NaN and "0" parses to 0; both are served the
50 MB default. -/
theorem download_default_size_witness :
    jsParseInt "abc" = none ∧ jsParseInt "0" = some 0 ∧
    downloadTotalBytes (some "abc") = 52428800 ∧
    downloadTotalBytes (some "0") = 52428800 :=
  ⟨by decide, by decide,
   download_default_size.2.1 "abc" (by decide),
   download_default_size.2.2.1 "0" (by decide)⟩

/-- C4 counterexample: the random draw 99999/100000 lies in the unit interval,
yet the latency it produces rounds up to exactly 60.00: the delay 59.9995 is
inside 10..60 but its two-decimal rounding is not below 60.00. -/
theorem ping_latency_cex :
    (0 : ℚ) ≤ 99999 / 100000 ∧ (99999 : ℚ) / 100000 < 1 ∧
    (pingResponse (99999 / 100000)).latency = 60 ∧
    ¬ (pingResponse (99999 / 100000)).latency < 60 := by
  have h : (pingResponse (99999 / 100000)).latency = 60 := by
    show toFixed2Val (pingDelay (99999 / 100000)) = 60
    rw [pingDelay, toFixed2Val, toFixed2Int]
    norm_num
  exact ⟨by norm_num, by norm_num, h, by rw [h]; norm_num⟩

/-- C4 (amended): for every random draw in the unit interval the response
message is "pong", the delay waited lies in 10 inclusive to 60 exclusive, and
the latency reported is that delay rounded to two decimals, which lies in
10.00 to 60.00 with the upper bound attainable (the rounding can reach 60.00
even though the delay itself never does). -/
theorem ping_latency_amended (r : ℚ) (h0 : 0 ≤ r) (h1 : r < 1) :
    (pingResponse r).message = "pong" ∧
    10 ≤ pingDelay r ∧ pingDelay r < 60 ∧
    (pingResponse r).latency = toFixed2Val (pingDelay r) ∧
    10 ≤ (pingResponse r).latency ∧ (pingResponse r).latency ≤ 60 := by
  have hd0 : 10 ≤ pingDelay r := by rw [pingDelay]; nlinarith
  have hd1 : pingDelay r < 60 := by rw [pingDelay]; nlinarith
  have hlo : (1000 : ℤ) ≤ toFixed2Int (pingDelay r) := by
    rw [toFixed2Int]
    refine Int.le_floor.mpr ?_
    push_cast
    nlinarith
  have hhi : toFixed2Int (pingDelay r) ≤ 6000 := by
    rw [toFixed2Int]
    have hle : pingDelay r * 100 + 1 / 2 ≤ (12001 : ℚ) / 2 := by nlinarith
    have hmono := Int.floor_mono hle
    have hval : ⌊(12001 : ℚ) / 2⌋ = 6000 := by norm_num
    omega
  refine ⟨rfl, hd0, hd1, rfl, ?_, ?_⟩
  · show (10 : ℚ) ≤ toFixed2Val (pingDelay r)
    rw [toFixed2Val, le_div_iff₀ (by norm_num)]
    have : ((1000 : ℤ) : ℚ) ≤ ((toFixed2Int (pingDelay r) : ℤ) : ℚ) := by
      exact_mod_cast hlo
    push_cast at this ⊢
    linarith
  · show toFixed2Val (pingDelay r) ≤ 60
    rw [toFixed2Val, div_le_iff₀ (by norm_num)]
    have : ((toFixed2Int (pingDelay r) : ℤ) : ℚ) ≤ ((6000 : ℤ) : ℚ) := by
      exact_mod_cast hhi
    push_cast at this ⊢
    linarith

/-- C4 amended witness: the draw one half gives the delay 35 and the reported
latency 35, inside all the stated bounds. -/
theorem ping_latency_amended_witness :
    (0 : ℚ) ≤ 1 / 2 ∧ (1 : ℚ) / 2 < 1 ∧
    ((pingResponse (1 / 2)).message = "pong" ∧
      10 ≤ pingDelay (1 / 2) ∧ pingDelay (1 / 2) < 60 ∧
      (pingResponse (1 / 2)).latency = toFixed2Val (pingDelay (1 / 2)) ∧
      10 ≤ (pingResponse (1 / 2)).latency ∧ (pingResponse (1 / 2)).latency ≤ 60) :=
  ⟨by norm_num, by norm_num, ping_latency_amended (1 / 2) (by norm_num) (by norm_num)⟩

/-- Draining data events then the end event responds ok with the megabytes of
all accumulated bytes. -/
theorem runUpload_data_eof (chunks : List ℕ) : ∀ acc,
    runUpload (chunks.map UpEvent.data ++ [UpEvent.eof]) acc =
      .ok (mbString (acc + chunks.sum)) := by
  induction chunks with
  | nil => intro acc; simp [runUpload]
  | cons n rest ih =>
    intro acc
    simp only [List.map_cons, List.cons_append, List.sum_cons]
    show runUpload (rest.map UpEvent.data ++ [UpEvent.eof]) (acc + n) = _
    rw [ih (acc + n), Nat.add_assoc]

/-- C5: a body stream that completes normally is answered with status ok and
receivedMB equal to the total bytes received divided by 1048576 and rendered
to two decimals; a 5242880-byte (5 MB) body renders as "5.00". -/
theorem upload_received_mb :
    (∀ (q : Option String) (chunks : List ℕ),
      uploadHandler q (chunks.map UpEvent.data ++ [UpEvent.eof]) =
        .ok (mbString chunks.sum)) ∧
    mbString 5242880 = "5.00" := by
  constructor
  · intro q chunks
    show runUpload (chunks.map UpEvent.data ++ [UpEvent.eof]) 0 = _
    rw [runUpload_data_eof chunks 0, Nat.zero_add]
  · have h : toFixed2Int (((5242880 : ℕ) : ℚ) / (1024 * 1024)) = 500 := by
      norm_num [toFixed2Int]
    show renderFixed2 (((5242880 : ℕ) : ℚ) / (1024 * 1024)) = "5.00"
    rw [renderFixed2, h]
    decide

/-- C7: the upload size query is purely advisory: any two requests with the
same body events get identical responses whatever their size queries, and a
200 MB body is fully counted even under a 1 MB size hint. -/
theorem upload_size_advisory :
    (∀ q1 q2 events, uploadHandler q1 events = uploadHandler q2 events) ∧
    uploadHandler (some "1") [UpEvent.data 209715200, UpEvent.eof] =
      .ok (mbString 209715200) ∧
    mbString 209715200 = "200.00" := by
  refine ⟨fun q1 q2 events => rfl, rfl, ?_⟩
  have h : toFixed2Int (((209715200 : ℕ) : ℚ) / (1024 * 1024)) = 20000 := by
    norm_num [toFixed2Int]
  show renderFixed2 (((209715200 : ℕ) : ℚ) / (1024 * 1024)) = "200.00"
  rw [renderFixed2, h]
  decide

/-- C8, the code evaluated at the failing input: a body stream that errors
mid-stream (here after one 1 MiB chunk) gets no response at all - not the
generic 500 failure the catch block would send, which only covers the
synchronous listener registration.  In general any error event before the
end event leaves the handler silent. -/
theorem upload_error_no_response :
    uploadHandler (some "10") [UpEvent.data 1048576, UpEvent.error] =
      .noResponse ∧
    uploadHandler (some "10") [UpEvent.data 1048576, UpEvent.error] ≠
      .failed ∧
    (∀ s, (UploadOutcome.noResponse : UploadOutcome) ≠ .ok s) ∧
    (∀ (pre : List ℕ) (events : List UpEvent) (acc : ℕ),
      runUpload (pre.map UpEvent.data ++ UpEvent.error :: events) acc =
        .noResponse) := by
  refine ⟨rfl, by decide, fun s h => UploadOutcome.noConfusion h, ?_⟩
  intro pre events acc
  induction pre generalizing acc with
  | nil => rfl
  | cons n rest ih => exact ih (acc + n)

/-- C3: a missing, empty or whitespace-only message is answered 400 with the
validation reply; a valid message whose upstream call throws is answered 500
with the fixed degradation reply, identical whatever the exception was. -/
theorem chat_error_paths :
    (∀ up, chatHandler none up = ⟨400, validationReply⟩) ∧
    (∀ m up, jsTrim m = "" → chatHandler (some m) up = ⟨400, validationReply⟩) ∧
    (∀ m e, jsTrim m ≠ "" →
      chatHandler (some m) (Except.error e) = ⟨500, degradedReply⟩) ∧
    (∀ m e1 e2, chatHandler (some m) (Except.error e1) =
      chatHandler (some m) (Except.error e2)) := by
  refine ⟨fun up => rfl, ?_, ?_, fun m e1 e2 => rfl⟩
  · intro m up h
    simp [chatHandler, h]
  · intro m e h
    have hm : m ≠ "" := fun hmm => h (by rw [hmm]; rfl)
    simp [chatHandler, h, hm]

/-- C3 witness: the three paths at concrete inputs: absent message, the
whitespace-only message " ", and the message "hello" with an unreachable
upstream, whose exception text does not reach the client. -/
theorem chat_error_paths_witness :
    chatHandler none (Except.ok (some "x")) = ⟨400, validationReply⟩ ∧
    jsTrim " " = "" ∧
    chatHandler (some " ") (Except.ok (some "x")) = ⟨400, validationReply⟩ ∧
    jsTrim "hello" ≠ "" ∧
    chatHandler (some "hello") (Except.error "ECONNREFUSED") =
      ⟨500, degradedReply⟩ :=
  ⟨chat_error_paths.1 _, by decide, chat_error_paths.2.1 " " _ (by decide),
   by decide, chat_error_paths.2.2.1 "hello" "ECONNREFUSED" (by decide)⟩

/-- C10: on upstream success the reply is the content trimmed, with every
s tag (opening or closing, case-insensitively) deleted, and trimmed again;
missing content and content that trims to empty get the fixed fallback
instead. -/
theorem chat_reply_transform :
    (∀ m, jsTrim m ≠ "" →
      chatHandler (some m) (Except.ok none) = ⟨200, fallbackReply⟩) ∧
    (∀ m c, jsTrim m ≠ "" → jsTrim c = "" →
      chatHandler (some m) (Except.ok (some c)) = ⟨200, fallbackReply⟩) ∧
    (∀ m c, jsTrim m ≠ "" → jsTrim c ≠ "" →
      chatHandler (some m) (Except.ok (some c)) =
        ⟨200, jsTrim (stripSTags (jsTrim c))⟩) := by
  have hfb : jsTrim (stripSTags fallbackReply) = fallbackReply := by decide
  refine ⟨?_, ?_, ?_⟩
  · intro m hm
    have hm' : m ≠ "" := fun hmm => hm (by rw [hmm]; rfl)
    simp [chatHandler, hm, hm', jsOrStr, hfb]
  · intro m c hm hc
    have hm' : m ≠ "" := fun hmm => hm (by rw [hmm]; rfl)
    simp [chatHandler, hm, hm', jsOrStr, hc, hfb]
  · intro m c hm hc
    have hm' : m ≠ "" := fun hmm => hm (by rw [hmm]; rfl)
    simp [chatHandler, hm, hm', jsOrStr, hc]

/-- C10 witness: the content " <s>Yes</S> " trims, loses both s tags and
trims again to "Yes". -/
theorem chat_reply_transform_witness :
    jsTrim "hi" ≠ "" ∧ jsTrim " <s>Yes</S> " ≠ "" ∧
    chatHandler (some "hi") (Except.ok (some " <s>Yes</S> ")) =
      ⟨200, jsTrim (stripSTags (jsTrim " <s>Yes</S> "))⟩ ∧
    jsTrim (stripSTags (jsTrim " <s>Yes</S> ")) = "Yes" :=
  ⟨by decide, by decide,
   chat_reply_transform.2.2 "hi" " <s>Yes</S> " (by decide) (by decide),
   by decide⟩
